import Mathlib

/-!
Verification development for the ELP dashboard data pipeline
(`csv_to_json_optimized.py` and `update_data.py`).

The Python code is shallowly embedded:
* Python dicts that are only read back by key are embedded as functions
  `K → Option V`; dicts whose iteration (insertion) order matters are
  embedded as association lists with in-place update (`upsertD`), which
  matches CPython dict semantics (update keeps position, new key appends).
* Month keys: the code uses zero-padded `"YYYY-MM"` strings with year
  ≥ 2025; we embed them as pairs `(year, month) : Nat × Nat`, whose
  lexicographic order coincides with the lexicographic string order of the
  zero-padded representation on the reachable domain.
* Python floats are embedded as rationals; `round(x, 1)` is embedded as
  round-half-to-even at one decimal.
-/

namespace ELP

/-- A `{"oos": _, "all": _}` counter pair as used by all three count tables. -/
structure Counts where
  oos : Nat
  all : Nat
deriving DecidableEq, Repr

instance : Inhabited Counts := ⟨⟨0, 0⟩⟩

/-- The increment block the two pipelines apply to a bucket for one record:
`all += 1`, and `oos += 1` when the record's OOS flag is set. -/
def bumpC (oos : Bool) (c : Counts) : Counts :=
  { oos := c.oos + (if oos then 1 else 0), all := c.all + 1 }

/-- CPython-dict update on an association list: if the key is present its
value is updated in place (keeping its position), otherwise the pair is
appended at the end, with `f` applied to the default `d`. -/
def upsertD {K V : Type} [DecidableEq K] (k : K) (d : V) (f : V → V) :
    List (K × V) → List (K × V)
  | [] => [(k, f d)]
  | (k', v) :: t => if k = k' then (k', f v) :: t else (k', v) :: upsertD k d f t

/-- Dict read with a default (`dict.get(k, d)`, or a `defaultdict` read). -/
def lookupD {K V : Type} [DecidableEq K] (k : K) (d : V) : List (K × V) → V
  | [] => d
  | (k', v) :: t => if k = k' then v else lookupD k d t

theorem lookupD_upsertD {K V : Type} [DecidableEq K] (k k' : K) (d : V) (f : V → V)
    (l : List (K × V)) :
    lookupD k' d (upsertD k d f l) = if k' = k then f (lookupD k d l) else lookupD k' d l := by
  induction l with
  | nil =>
    by_cases h : k' = k <;> simp [upsertD, lookupD, h]
  | cons p t ih =>
    obtain ⟨k₀, v₀⟩ := p
    by_cases h1 : k = k₀
    · subst h1
      by_cases h2 : k' = k <;> simp [upsertD, lookupD, h2]
    · by_cases h2 : k' = k₀
      · subst h2
        simp [upsertD, lookupD, h1, Ne.symm h1]
      · simp [upsertD, lookupD, h1, h2, ih]

/-! ## Violation classifier (`load_elp_violations`, csv_to_json_optimized.py lines 55–65) -/

/-- Python `str.strip()` on the character list of a string. -/
def pyStrip (cs : List Char) : List Char :=
  ((cs.dropWhile Char.isWhitespace).reverse.dropWhile Char.isWhitespace).reverse

/-- Python `str.upper()` (ASCII-relevant part) on the character list. -/
def pyUpper (cs : List Char) : List Char :=
  cs.map Char.toUpper

/-- The ELP-category test of `load_elp_violations`:
`part_no == '391' and (part_section == '11(B)(2)' or part_section.startswith('11B2'))`,
where `part_no` was `.strip()`-ped and `part_section` was `.strip().upper()`-ed. -/
def is_elp (part_no part_section : String) : Bool :=
  let p := pyStrip part_no.data
  let s := pyUpper (pyStrip part_section.data)
  p = "391".data ∧ (s = "11(B)(2)".data ∨ "11B2".data.isPrefixOf s)

/-- The OOS-indicator test used by both pipelines:
`indicator.strip().upper() in ['TRUE', 'T', 'Y', 'YES', '1']`. -/
def is_oos_ind (indicator : String) : Bool :=
  let u := pyUpper (pyStrip indicator.data)
  u = "TRUE".data ∨ u = "T".data ∨ u = "Y".data ∨ u = "YES".data ∨ u = "1".data

/-! ## Date normalizer (`process_inspections`, csv_to_json_optimized.py lines 149–189)

The four `datetime` parses are embedded arithmetically.  CPython's
`_strptime` directives match: `%Y` exactly 4 digits, `%y` exactly 2 digits,
`%d` and `%m` 1–2 digits, `%b` a month abbreviation (case-normalized here
because the code upper-cases before the `%d-%b-%y` attempt); `datetime`
construction then validates the day against the month length (with leap
years).  `fromisoformat` is embedded as the `YYYY-MM-DD` form, after the
code's `split("T")[0]` truncation. -/

def digitsToNat (cs : List Char) : Nat :=
  cs.foldl (fun n c => n * 10 + (c.toNat - 48)) 0

def allDigits (cs : List Char) : Bool := cs.all Char.isDigit

def isLeap (y : Nat) : Bool := y % 4 = 0 ∧ (y % 100 ≠ 0 ∨ y % 400 = 0)

def daysInMonth (y m : Nat) : Nat :=
  if m = 2 then (if isLeap y then 29 else 28)
  else if m = 4 ∨ m = 6 ∨ m = 9 ∨ m = 11 then 30
  else 31

/-- `datetime(y, m, d)` validity; successful parses keep `(year, month)`,
which is all `strftime("%Y-%m")` retains. -/
def mkDate (y m d : Nat) : Option (Nat × Nat) :=
  if 1 ≤ y ∧ y ≤ 9999 ∧ 1 ≤ m ∧ m ≤ 12 ∧ 1 ≤ d ∧ d ≤ daysInMonth y m
  then some (y, m) else none

/-- `datetime.strptime(date_str, "%Y%m%d")` guarded by
`len(date_str) == 8 and date_str.isdigit()`. -/
def parseYYYYMMDD (cs : List Char) : Option (Nat × Nat) :=
  if cs.length = 8 ∧ allDigits cs then
    mkDate (digitsToNat (cs.take 4)) (digitsToNat ((cs.drop 4).take 2)) (digitsToNat (cs.drop 6))
  else none

/-- `datetime.fromisoformat(date_str.split("T")[0])`. -/
def parseISO (cs : List Char) : Option (Nat × Nat) :=
  match cs.takeWhile (fun c => c ≠ 'T') with
  | [y1, y2, y3, y4, '-', m1, m2, '-', d1, d2] =>
    if allDigits [y1, y2, y3, y4] ∧ allDigits [m1, m2] ∧ allDigits [d1, d2] then
      mkDate (digitsToNat [y1, y2, y3, y4]) (digitsToNat [m1, m2]) (digitsToNat [d1, d2])
    else none
  | _ => none

/-- The `%b` month abbreviations (the input has already been upper-cased). -/
def monthAbbrev (cs : List Char) : Option Nat :=
  if cs = "JAN".data then some 1 else if cs = "FEB".data then some 2
  else if cs = "MAR".data then some 3 else if cs = "APR".data then some 4
  else if cs = "MAY".data then some 5 else if cs = "JUN".data then some 6
  else if cs = "JUL".data then some 7 else if cs = "AUG".data then some 8
  else if cs = "SEP".data then some 9 else if cs = "OCT".data then some 10
  else if cs = "NOV".data then some 11 else if cs = "DEC".data then some 12
  else none

/-- `datetime.strptime(date_str.upper(), "%d-%b-%y")`; `%y` maps `00–68` to
`2000–2068` and `69–99` to `1969–1999`. -/
def parseDMY (cs : List Char) : Option (Nat × Nat) :=
  match (pyUpper cs).splitOn '-' with
  | [d, mon, y] =>
    if (1 ≤ d.length ∧ d.length ≤ 2 ∧ allDigits d) ∧ (y.length = 2 ∧ allDigits y) then
      match monthAbbrev mon with
      | some m =>
        let yy := digitsToNat y
        mkDate (if yy ≤ 68 then 2000 + yy else 1900 + yy) m (digitsToNat d)
      | none => none
    else none
  | _ => none

/-- `datetime.strptime(date_str, "%m/%d/%Y")`. -/
def parseMDY (cs : List Char) : Option (Nat × Nat) :=
  match cs.splitOn '/' with
  | [m, d, y] =>
    if (1 ≤ m.length ∧ m.length ≤ 2 ∧ allDigits m) ∧ (1 ≤ d.length ∧ d.length ≤ 2 ∧ allDigits d) ∧
       (y.length = 4 ∧ allDigits y) then
      mkDate (digitsToNat y) (digitsToNat m) (digitsToNat d)
    else none
  | _ => none

/-- The date-format cascade of `process_inspections`: after
`str(date_str).strip()`, try `%Y%m%d`, then ISO (truncated at `"T"`), then
`%d-%b-%y` (upper-cased), then `%m/%d/%Y`; the first successful parse wins
and `none` means the record is skipped. -/
def parse_date (s : String) : Option (Nat × Nat) :=
  let cs := pyStrip s.data
  (parseYYYYMMDD cs).orElse (fun _ =>
    (parseISO cs).orElse (fun _ =>
      (parseDMY cs).orElse (fun _ => parseMDY cs)))

/-! ## Rounding

Python's `round` is round-half-to-even; the pipelines use `round(x, 1)` for
rates/changes and `round(x)` for `avg_per_month`.  Floats are embedded as
rationals. -/

/-- Round-half-to-even of a rational to an integer (`round(x)`). -/
def roundHalfEven (x : ℚ) : ℤ :=
  let n := x.num
  let d : ℤ := (x.den : ℤ)
  let f := Int.fdiv n d
  let rem := n - f * d
  if 2 * rem < d then f
  else if d < 2 * rem then f + 1
  else if f % 2 = 0 then f else f + 1

/-- `round(x, 1)`. -/
def round1 (x : ℚ) : ℚ := (roundHalfEven (x * 10) : ℚ) / 10

/-! ## Row types and the violation map (`load_elp_violations`) -/

/-- A raw row of `violations.csv` restricted to the consumed fields; a
missing field is the empty string (the code coalesces missing keys with
`or ''` and `if inspection_id:` / `if change_date` guards). -/
structure ViolationRow where
  part_no : String
  part_section : String
  change_date : String
  inspection_id : String
  oos_indicator : String
deriving DecidableEq, Repr

/-- A raw row of `inspections.csv` restricted to the consumed fields. -/
structure InspectionRow where
  inspection_id : String
  report_state : String
  insp_date : String
deriving DecidableEq, Repr

/-- The date filter of `load_elp_violations` lines 70–77:
`date_part = change_date.split()[0] if change_date else ''`, then
`len(date_part) == 8 and date_part.isdigit()` and `int(date_part[:4]) >= 2025`. -/
def elpDateOk (change_date : String) : Bool :=
  let stripped := pyStrip change_date.data
  let date_part :=
    if stripped ≠ [] then (stripped.dropWhile Char.isWhitespace).takeWhile (fun c => ¬ c.isWhitespace)
    else []
  date_part.length = 8 ∧ allDigits date_part ∧ 2025 ≤ digitsToNat (date_part.take 4)

/-- A violation row qualifies for the ELP map: category match, 2025+ date,
and a non-empty inspection id. -/
def elpRowOk (row : ViolationRow) : Prop :=
  is_elp row.part_no row.part_section = true ∧ elpDateOk row.change_date = true ∧
    row.inspection_id ≠ ""

instance (row : ViolationRow) : Decidable (elpRowOk row) := by
  unfold elpRowOk; infer_instance

/-- The map-building core of `load_elp_violations`
(csv_to_json_optimized.py lines 50–87): for each qualifying row,
`elp_violations[inspection_id] = is_elp_oos` — a later row with the same id
overwrites an earlier one. -/
def load_elp_violations (rows : List ViolationRow) : String → Option Bool :=
  rows.foldl
    (fun m row =>
      if elpRowOk row then
        fun u => if u = row.inspection_id then some (is_oos_ind row.oos_indicator) else m u
      else m)
    (fun _ => none)

/-! ## Join engine (`fetch_inspection_states`, update_data.py lines 122–129) -/

/-- An inspection record as returned by the Socrata API (consumed fields). -/
structure ApiInspection where
  unique_id : String
  report_state : String
deriving DecidableEq, Repr

/-- Whether a fetched inspection writes into the state map:
`if uid in target_ids:` and `if state:`. -/
def apiRowOk (target_ids : List String) (i : ApiInspection) : Prop :=
  i.unique_id ∈ target_ids ∧ i.report_state ≠ ""

instance (t : List String) (i : ApiInspection) : Decidable (apiRowOk t i) := by
  unfold apiRowOk; infer_instance

/-- The matching core of `fetch_inspection_states`: over all fetched
inspection batches (concatenated in arrival order),
`state_map[uid] = state` for each matching row — last observation wins. -/
def fetch_inspection_states (target_ids : List String) (inspections : List ApiInspection) :
    String → Option String :=
  inspections.foldl
    (fun m i =>
      if apiRowOk target_ids i then
        fun u => if u = i.unique_id then some i.report_state else m u
      else m)
    (fun _ => none)

/-! ## Aggregator (`process_inspections` lines 126–204) -/

/-- A `"YYYY-MM"` bucket key, embedded as `(year, month)`; on the reachable
domain (zero-padded, year ≥ 2025) lexicographic order of the strings and of
the pairs coincide. -/
abbrev Month := Nat × Nat

/-- Lexicographic (chronological) order on month keys, the order
`sorted(monthly_data.keys())` produces on the `"YYYY-MM"` strings. -/
def monthLE (a b : Month) : Prop := a.1 < b.1 ∨ (a.1 = b.1 ∧ a.2 ≤ b.2)

instance : DecidableRel monthLE := by
  unfold monthLE; infer_instance

/-- A record that passed classification, join and date filtering, reduced to
the three values the counting block reads. -/
structure Enriched where
  month : Month
  state : String
  oos : Bool
deriving DecidableEq, Repr

/-- The three count tables plus running totals. Tables are association
lists in dict insertion order. -/
structure Tables where
  monthly : List (Month × Counts)
  state_data : List (String × Counts)
  state_monthly : List (String × List (Month × Counts))
  total_oos : Nat
  total_all : Nat
deriving DecidableEq, Repr

def emptyTables : Tables := ⟨[], [], [], 0, 0⟩

/-- The per-record increment block (csv_to_json_optimized.py lines 194–204,
identical in update_data.py lines 285–295). -/
def incr (t : Tables) (ym : Month) (st : String) (oos : Bool) : Tables :=
  { monthly := upsertD ym ⟨0, 0⟩ (bumpC oos) t.monthly
    state_data := upsertD st ⟨0, 0⟩ (bumpC oos) t.state_data
    state_monthly := upsertD st [] (upsertD ym ⟨0, 0⟩ (bumpC oos)) t.state_monthly
    total_oos := t.total_oos + (if oos then 1 else 0)
    total_all := t.total_all + 1 }

/-- The per-row filter chain of `process_inspections`: skip unless the id is
in the ELP map, the state is present, the date parses, and the year is
2025+. -/
def enrich (elp : String → Option Bool) (row : InspectionRow) : Option Enriched :=
  match elp row.inspection_id with
  | none => none
  | some oosFlag =>
    if row.report_state = "" then none
    else if row.insp_date = "" then none
    else
      match parse_date row.insp_date with
      | none => none
      | some ym => if ym.1 < 2025 then none else some ⟨ym, row.report_state, oosFlag⟩

/-- `process_inspections`: fold the filter-then-count loop over the rows. -/
def process_inspections (rows : List InspectionRow) (elp : String → Option Bool) : Tables :=
  rows.foldl
    (fun t row =>
      match enrich elp row with
      | none => t
      | some e => incr t e.month e.state e.oos)
    emptyTables

/-- The aggregation step alone, over already-enriched records. -/
def aggregateE (l : List Enriched) : Tables :=
  l.foldl (fun t e => incr t e.month e.state e.oos) emptyTables

/-- The full CSV pipeline state: `load_elp_violations` then
`process_inspections`. -/
def pipelineTables (violations : List ViolationRow) (inspections : List InspectionRow) : Tables :=
  process_inspections inspections (load_elp_violations violations)

/-! ## Statistics engine (`generate_json` / `process_violations`) -/

/-- `sorted(monthly_data.keys())`. -/
def sorted_months (monthly : List (Month × Counts)) : List Month :=
  List.insertionSort monthLE (monthly.map Prod.fst)

/-- The `monthly_oos` array: `monthly_data[month]["oos"]` over the sorted
months. -/
def monthlyOosSeries (monthly : List (Month × Counts)) : List Nat :=
  (sorted_months monthly).map (fun m => (lookupD m ⟨0, 0⟩ monthly).oos)

/-- `max(monthly_data.items(), key=lambda x: x[1]["oos"])` guarded by
`if monthly_data`: Python `max` keeps the first item on ties, in dict
insertion order. -/
def peak_month (l : List (Month × Counts)) : Option (Month × Counts) :=
  match l with
  | [] => none
  | x :: xs => some (xs.foldl (fun best y => if best.2.oos < y.2.oos then y else best) x)

/-- The maximum `oos` value over the monthly buckets. -/
def maxOos (l : List (Month × Counts)) : Nat :=
  l.foldl (fun n x => max n x.2.oos) 0

/-- The month-over-month block of `generate_json`
(csv_to_json_optimized.py lines 298–310), before the final `round(., 1)`. -/
def mom_change (monthly_oos : List Nat) : ℚ :=
  if 3 ≤ monthly_oos.length then
    let last_full : ℚ := monthly_oos.getD (monthly_oos.length - 2) 0
    let previous_full : ℚ := monthly_oos.getD (monthly_oos.length - 3) 0
    if 0 < previous_full then (last_full - previous_full) / previous_full * 100 else 0
  else if 2 ≤ monthly_oos.length then
    let current : ℚ := monthly_oos.getD (monthly_oos.length - 1) 0
    let last : ℚ := monthly_oos.getD (monthly_oos.length - 2) 0
    if 0 < last then (current - last) / last * 100 else 0
  else 0

/-- The month-over-month block of `process_violations`
(update_data.py lines 330–336): always the latest two months. -/
def mom_change_upd (monthly_oos : List Nat) : ℚ :=
  if 2 ≤ monthly_oos.length then
    let current : ℚ := monthly_oos.getD (monthly_oos.length - 1) 0
    let last : ℚ := monthly_oos.getD (monthly_oos.length - 2) 0
    if 0 < last then (current - last) / last * 100 else 0
  else 0

/-- `oos_rate` as built into the result dict:
`round((total_oos / total_all * 100) if total_all > 0 else 0, 1)`. -/
def oos_rate (total_oos total_all : Nat) : ℚ :=
  round1 (if 0 < total_all then (total_oos : ℚ) / total_all * 100 else 0)

/-- `avg_per_month = total_oos / len(sorted_months) if sorted_months else 0`,
before the final `round(.)`. -/
def avg_per_month (total_oos : Nat) (sm : List Month) : ℚ :=
  if sm ≠ [] then (total_oos : ℚ) / sm.length else 0

/-! ## Biggest movers -/

/-- One entry of the `changes` list
(`{"state": ..., "change": round(pct_change, 1), "current": ..., "previous": ...}`). -/
structure Change where
  state : String
  change : ℚ
  current : Nat
  previous : Nat
deriving DecidableEq, Repr

/-- Descending order on the rounded `change` field, the sort key of
`changes.sort(key=lambda x: x["change"], reverse=True)`. -/
def changeDesc (a b : Change) : Prop := b.change ≤ a.change

instance : DecidableRel changeDesc := by
  unfold changeDesc; infer_instance

/-- The qualifying-changes list of the CSV `calculate_biggest_movers`
(lines 248–262): volume filter `previous >= 5`. -/
def moverChanges (state_monthly : List (String × List (Month × Counts)))
    (current_month previous_month : Month) : List Change :=
  state_monthly.filterMap (fun p =>
    let current : Nat := (lookupD current_month ⟨0, 0⟩ p.2).oos
    let previous : Nat := (lookupD previous_month ⟨0, 0⟩ p.2).oos
    if 5 ≤ previous then
      some ⟨p.1, round1 (((current : ℚ) - (previous : ℚ)) / (previous : ℚ) * 100), current, previous⟩
    else none)

/-- `calculate_biggest_movers` of csv_to_json_optimized.py (lines 234–269):
months `[-2]` and `[-3]`, filter `previous >= 5`, stable descending sort,
`increases = changes[:3] if len(changes) >= 3 else changes`,
`decreases = changes[-3:][::-1] if len(changes) >= 3 else []`. -/
def calculate_biggest_movers (state_monthly : List (String × List (Month × Counts)))
    (sm : List Month) : List Change × List Change :=
  if sm.length < 3 then ([], [])
  else
    let current_month := sm.getD (sm.length - 2) (0, 0)
    let previous_month := sm.getD (sm.length - 3) (0, 0)
    let changes := List.insertionSort changeDesc
      (moverChanges state_monthly current_month previous_month)
    (if 3 ≤ changes.length then changes.take 3 else changes,
     if 3 ≤ changes.length then (changes.drop (changes.length - 3)).reverse else [])

/-- The qualifying-changes list of the update_data variant (lines 383–394):
volume filter `previous > 0`. -/
def moverChangesUpd (state_monthly : List (String × List (Month × Counts)))
    (current_month previous_month : Month) : List Change :=
  state_monthly.filterMap (fun p =>
    let current : Nat := (lookupD current_month ⟨0, 0⟩ p.2).oos
    let previous : Nat := (lookupD previous_month ⟨0, 0⟩ p.2).oos
    if 0 < previous then
      some ⟨p.1, round1 (((current : ℚ) - (previous : ℚ)) / (previous : ℚ) * 100), current, previous⟩
    else none)

/-- `calculate_biggest_movers` of update_data.py (lines 373–401): months
`[-1]` and `[-2]`, needs only 2 months, filter `previous > 0`,
`increases = [c for c in changes if c["change"] > 0][:3]`,
`decreases = [c for c in changes if c["change"] < 0][:3]`. -/
def calculate_biggest_movers_upd (state_monthly : List (String × List (Month × Counts)))
    (sm : List Month) : List Change × List Change :=
  if sm.length < 2 then ([], [])
  else
    let current_month := sm.getD (sm.length - 1) (0, 0)
    let previous_month := sm.getD (sm.length - 2) (0, 0)
    let changes := List.insertionSort changeDesc
      (moverChangesUpd state_monthly current_month previous_month)
    ((changes.filter (fun c => 0 < c.change)).take 3,
     (changes.filter (fun c => c.change < 0)).take 3)

/-! ## Last-write characterization of the two id-keyed dict builders -/

/-- A fold that conditionally writes `key a ↦ val a` resolves each key to
the value of the last list element that wrote it. -/
theorem foldl_condWrite {α K V : Type} [DecidableEq K] (p : α → Prop) [DecidablePred p]
    (key : α → K) (val : α → V) (l : List α) (k : K) :
    l.foldl
      (fun m a => if p a then (fun u => if u = key a then some (val a) else m u) else m)
      (fun _ => none) k
    = ((l.filter (fun a => decide (p a ∧ key a = k))).getLast?).map val := by
  induction l using List.reverseRecOn with
  | nil => simp
  | append_singleton l a ih =>
    rw [List.foldl_append, List.filter_append]
    by_cases hp : p a
    · by_cases hk : key a = k
      · simp [hp, hk, List.getLast?_concat]
      · have : k ≠ key a := fun h => hk h.symm
        simp [hp, hk, this, ih]
    · simp [hp, ih]

/-! ## Aggregation lookup lemmas -/

theorem agg_monthly (l : List Enriched) (t : Tables) (ym : Month) :
    lookupD ym ⟨0, 0⟩ ((l.foldl (fun t e => incr t e.month e.state e.oos) t).monthly)
    = ⟨(lookupD ym ⟨0, 0⟩ t.monthly).oos + l.countP (fun e => decide (e.month = ym) && e.oos),
       (lookupD ym ⟨0, 0⟩ t.monthly).all + l.countP (fun e => decide (e.month = ym))⟩ := by
  induction l generalizing t with
  | nil => simp
  | cons e l ih =>
    rw [List.foldl_cons, ih]
    simp only [incr, lookupD_upsertD, List.countP_cons]
    by_cases h : ym = e.month
    · cases he : e.oos <;> simp [h, he, bumpC] <;> omega
    · have h2 : ¬ (e.month = ym) := fun hh => h hh.symm
      simp [h, h2]

theorem agg_state (l : List Enriched) (t : Tables) (st : String) :
    lookupD st ⟨0, 0⟩ ((l.foldl (fun t e => incr t e.month e.state e.oos) t).state_data)
    = ⟨(lookupD st ⟨0, 0⟩ t.state_data).oos + l.countP (fun e => decide (e.state = st) && e.oos),
       (lookupD st ⟨0, 0⟩ t.state_data).all + l.countP (fun e => decide (e.state = st))⟩ := by
  induction l generalizing t with
  | nil => simp
  | cons e l ih =>
    rw [List.foldl_cons, ih]
    simp only [incr, lookupD_upsertD, List.countP_cons]
    by_cases h : st = e.state
    · cases he : e.oos <;> simp [h, he, bumpC] <;> omega
    · have h2 : ¬ (e.state = st) := fun hh => h hh.symm
      simp [h, h2]

theorem agg_state_monthly (l : List Enriched) (t : Tables) (st : String) (ym : Month) :
    lookupD ym ⟨0, 0⟩ (lookupD st []
        ((l.foldl (fun t e => incr t e.month e.state e.oos) t).state_monthly))
    = ⟨(lookupD ym ⟨0, 0⟩ (lookupD st [] t.state_monthly)).oos
         + l.countP (fun e => decide (e.state = st) && decide (e.month = ym) && e.oos),
       (lookupD ym ⟨0, 0⟩ (lookupD st [] t.state_monthly)).all
         + l.countP (fun e => decide (e.state = st) && decide (e.month = ym))⟩ := by
  induction l generalizing t with
  | nil => simp
  | cons e l ih =>
    rw [List.foldl_cons, ih]
    simp only [incr, lookupD_upsertD, List.countP_cons]
    by_cases h : st = e.state
    · by_cases hm : ym = e.month
      · cases he : e.oos <;> simp [h, hm, he, bumpC, lookupD_upsertD] <;> omega
      · have hm2 : ¬ (e.month = ym) := fun hh => hm hh.symm
        simp [h, hm, hm2, lookupD_upsertD]
    · have h2 : ¬ (e.state = st) := fun hh => h hh.symm
      simp [h, h2]

theorem agg_totals (l : List Enriched) (t : Tables) :
    ((l.foldl (fun t e => incr t e.month e.state e.oos) t).total_oos
       = t.total_oos + l.countP (fun e => e.oos))
    ∧ ((l.foldl (fun t e => incr t e.month e.state e.oos) t).total_all
       = t.total_all + l.length) := by
  induction l generalizing t with
  | nil => simp
  | cons e l ih =>
    rw [List.foldl_cons]
    rcases ih (incr t e.month e.state e.oos) with ⟨h1, h2⟩
    rw [h1, h2]
    simp only [incr, List.countP_cons, List.length_cons]
    cases he : e.oos <;> simp [he] <;> omega

/-- `process_inspections` is the pure aggregation of the records that
survive the per-row filter chain. -/
theorem process_inspections_eq_aggregateE (rows : List InspectionRow)
    (elp : String → Option Bool) :
    process_inspections rows elp = aggregateE (rows.filterMap (enrich elp)) := by
  unfold process_inspections aggregateE
  generalize emptyTables = t
  induction rows generalizing t with
  | nil => simp
  | cons row rows ih =>
    rw [List.filterMap_cons]
    cases h : enrich elp row <;> simp [h, ih]

/-! ## First-maximum decomposition for `peak_month` -/

/-- The running-best fold underlying `peak_month`. -/
def pickMax (x : Month × Counts) (xs : List (Month × Counts)) : Month × Counts :=
  xs.foldl (fun best y => if best.2.oos < y.2.oos then y else best) x

theorem peak_month_cons (x : Month × Counts) (xs : List (Month × Counts)) :
    peak_month (x :: xs) = some (pickMax x xs) := rfl

theorem pickMax_oos_ge_start (xs : List (Month × Counts)) :
    ∀ x, x.2.oos ≤ (pickMax x xs).2.oos := by
  induction xs with
  | nil => intro x; simp [pickMax]
  | cons y ys ih =>
    intro x
    show x.2.oos ≤ (pickMax (if x.2.oos < y.2.oos then y else x) ys).2.oos
    by_cases h : x.2.oos < y.2.oos
    · exact le_trans (le_of_lt h) (by simpa [h] using ih y)
    · simpa [h] using ih x

/-- Python `max(..., key=...)` keeps the first maximal element: the fold
result splits the list into a strictly-smaller prefix, the chosen element,
and a not-larger remainder. -/
theorem pickMax_decomp (xs : List (Month × Counts)) :
    ∀ x, ∃ l₁ p l₂, x :: xs = l₁ ++ p :: l₂ ∧ pickMax x xs = p
      ∧ (∀ y ∈ l₁, y.2.oos < p.2.oos) ∧ (∀ y ∈ x :: xs, y.2.oos ≤ p.2.oos) := by
  induction xs with
  | nil =>
    intro x
    exact ⟨[], x, [], by simp, rfl, by simp, by simp⟩
  | cons y ys ih =>
    intro x
    by_cases h : x.2.oos < y.2.oos
    · obtain ⟨l₁, p, l₂, hsplit, hpick, hlt, hle⟩ := ih y
      have hyp : y.2.oos ≤ p.2.oos := hle y (by simp)
      refine ⟨x :: l₁, p, l₂, by simp [hsplit], ?_, ?_, ?_⟩
      · show pickMax (if x.2.oos < y.2.oos then y else x) ys = p
        simpa [h] using hpick
      · intro z hz
        rcases List.mem_cons.mp hz with rfl | hz
        · exact lt_of_lt_of_le h hyp
        · exact hlt z hz
      · intro z hz
        rcases List.mem_cons.mp hz with rfl | hz
        · exact le_trans (le_of_lt h) hyp
        · exact hle z hz
    · obtain ⟨l₁, p, l₂, hsplit, hpick, hlt, hle⟩ := ih x
      have hyx : y.2.oos ≤ x.2.oos := le_of_not_lt h
      have hpick2 : pickMax x (y :: ys) = p := by
        show pickMax (if x.2.oos < y.2.oos then y else x) ys = p
        simpa [h] using hpick
      cases l₁ with
      | nil =>
        have hx : x = p := by simpa using congrArg (fun l => l.headI) hsplit
        subst hx
        have hys : ys = l₂ := by simpa using hsplit
        refine ⟨[], x, y :: ys, by simp, hpick2, by simp, ?_⟩
        intro z hz
        rcases List.mem_cons.mp hz with rfl | hz
        · exact le_refl _
        · rcases List.mem_cons.mp hz with rfl | hz
          · exact hyx
          · exact hle z (List.mem_cons_of_mem x hz)
      | cons x₁ l₁t =>
        have hx : x = x₁ := by simpa using congrArg (fun l => l.headI) hsplit
        subst hx
        have hys : ys = l₁t ++ p :: l₂ := by simpa using hsplit
        have hxlt : x.2.oos < p.2.oos := hlt x (by simp)
        refine ⟨x :: y :: l₁t, p, l₂, by simp [hys], hpick2, ?_, ?_⟩
        · intro z hz
          rcases List.mem_cons.mp hz with rfl | hz
          · exact hxlt
          · rcases List.mem_cons.mp hz with rfl | hz
            · exact lt_of_le_of_lt hyx hxlt
            · exact hlt z (by simp [hz])
        · intro z hz
          rcases List.mem_cons.mp hz with rfl | hz
          · exact le_of_lt hxlt
          · rcases List.mem_cons.mp hz with rfl | hz
            · exact le_trans hyx (le_of_lt hxlt)
            · exact hle z (by simp [hys] at hz ⊢; tauto)

/-! ## Claim theorems -/

/-- Claim C5: the violation classifier accepts part 391 with section texts
"11(B)(2)", "11B2", "11B2-S", "11B2-Z" in any letter case, rejects section
"11B3", and rejects every row with part number "392". -/
theorem C5_classifier :
    (is_elp "391" "11(B)(2)" = true ∧ is_elp "391" "11B2" = true
      ∧ is_elp "391" "11B2-S" = true ∧ is_elp "391" "11B2-Z" = true)
    ∧ (is_elp "391" "11(b)(2)" = true ∧ is_elp "391" "11b2" = true
      ∧ is_elp "391" "11b2-s" = true ∧ is_elp "391" "11b2-z" = true
      ∧ is_elp "391" "11B2-s" = true
      ∧ is_elp "391" "11b2-Z" = true)
    ∧ is_elp "391" "11B3" = false
    ∧ (∀ sec, is_elp "392" sec = false) := by
  refine ⟨by decide, by decide, by decide, ?_⟩
  intro sec
  simp only [is_elp]
  rw [decide_eq_false_iff_not]
  rintro ⟨h, -⟩
  exact absurd h (by decide)

/-- Claim C6: the date normalizer tries YYYYMMDD, then ISO (truncated at
"T"), then DD-MMM-YY, then MM/DD/YYYY, in that fixed order, accepting the
first that parses; a text none of them parses yields `none`, which makes
`enrich` drop the record without raising; and the four example encodings of
June 2025 all normalize to (2025, 6). -/
theorem C6_date_normalizer :
    parse_date "20250615" = some (2025, 6)
    ∧ parse_date "2025-06-15T00:00:00" = some (2025, 6)
    ∧ parse_date "15-JUN-25" = some (2025, 6)
    ∧ parse_date "06/15/2025" = some (2025, 6)
    ∧ parse_date "not-a-date" = none
    ∧ (∀ s ym, parseYYYYMMDD (pyStrip s.data) = some ym → parse_date s = some ym)
    ∧ (∀ s ym, parseYYYYMMDD (pyStrip s.data) = none →
        parseISO (pyStrip s.data) = some ym → parse_date s = some ym)
    ∧ (∀ s ym, parseYYYYMMDD (pyStrip s.data) = none → parseISO (pyStrip s.data) = none →
        parseDMY (pyStrip s.data) = some ym → parse_date s = some ym)
    ∧ (∀ s ym, parseYYYYMMDD (pyStrip s.data) = none → parseISO (pyStrip s.data) = none →
        parseDMY (pyStrip s.data) = none → parseMDY (pyStrip s.data) = some ym →
        parse_date s = some ym)
    ∧ (∀ s, parseYYYYMMDD (pyStrip s.data) = none → parseISO (pyStrip s.data) = none →
        parseDMY (pyStrip s.data) = none → parseMDY (pyStrip s.data) = none →
        parse_date s = none)
    ∧ (∀ elp (row : InspectionRow) b, elp row.inspection_id = some b →
        parse_date row.insp_date = none → enrich elp row = none) := by
  refine ⟨by decide, by decide, by decide, by decide, by decide, ?_, ?_, ?_, ?_, ?_, ?_⟩
  · intro s ym h1; simp [parse_date, h1, Option.orElse]
  · intro s ym h1 h2; simp [parse_date, h1, h2, Option.orElse]
  · intro s ym h1 h2 h3; simp [parse_date, h1, h2, h3, Option.orElse]
  · intro s ym h1 h2 h3 h4; simp [parse_date, h1, h2, h3, h4, Option.orElse]
  · intro s h1 h2 h3 h4; simp [parse_date, h1, h2, h3, h4, Option.orElse]
  · intro elp row b h1 h2
    unfold enrich
    rw [h1]
    by_cases hs : row.report_state = ""
    · simp [hs]
    · by_cases hd : row.insp_date = ""
      · simp [hs, hd]
      · simp [hs, hd, h2]

/-- Claim C6 witness: the fall-through and exclusion clauses at concrete
inputs. -/
theorem C6_date_normalizer_witness :
    parse_date "not-a-date" = none
    ∧ enrich (fun _ => some true) ⟨"1", "CA", "not-a-date"⟩ = none := by
  refine ⟨?_, ?_⟩
  · exact C6_date_normalizer.2.2.2.2.2.2.2.2.2.1 "not-a-date"
      (by decide) (by decide) (by decide) (by decide)
  · exact C6_date_normalizer.2.2.2.2.2.2.2.2.2.2 (fun _ => some true)
      ⟨"1", "CA", "not-a-date"⟩ true rfl (by decide)

/-- Claim C7: `oos_rate` is `round(total_oos / total_all * 100, 1)` for a
positive denominator and 0 for a zero one (50/200 gives 25.0); the other
denominator-guarded statistics (`avg_per_month`, both month-over-month
branches) also resolve to 0 on a zero denominator, and the movers lists
never divide by zero because qualification bounds the previous count away
from 0. -/
theorem C7_denominators :
    oos_rate 50 200 = 25
    ∧ (∀ o, oos_rate o 0 = 0)
    ∧ (∀ o a, 0 < a → oos_rate o a = round1 ((o : ℚ) / (a : ℚ) * 100))
    ∧ (∀ o, avg_per_month o [] = 0)
    ∧ (∀ l : List Nat, 3 ≤ l.length → l.getD (l.length - 3) 0 = 0 → mom_change l = 0)
    ∧ (∀ l : List Nat, l.length = 2 → l.getD (l.length - 2) 0 = 0 → mom_change l = 0)
    ∧ (∀ l : List Nat, 2 ≤ l.length → l.getD (l.length - 2) 0 = 0 → mom_change_upd l = 0)
    ∧ (∀ smly cm pm c, c ∈ moverChanges smly cm pm → 5 ≤ c.previous)
    ∧ (∀ smly cm pm c, c ∈ moverChangesUpd smly cm pm → 0 < c.previous) := by
  refine ⟨?_, ?_, ?_, ?_, ?_, ?_, ?_, ?_, ?_⟩
  · norm_num [oos_rate, round1, roundHalfEven]
  · intro o; norm_num [oos_rate, round1, roundHalfEven]
  · intro o a h; simp [oos_rate, h]
  · intro o; simp [avg_per_month]
  · intro l h3 hz
    simp only [mom_change, if_pos h3, hz]
    norm_num
  · intro l h2 hz
    have h3 : ¬ 3 ≤ l.length := by omega
    have h2' : 2 ≤ l.length := by omega
    simp only [mom_change, if_neg h3, if_pos h2', hz]
    norm_num
  · intro l h2 hz
    simp only [mom_change_upd, if_pos h2, hz]
    norm_num
  · intro smly cm pm c hc
    simp only [moverChanges, List.mem_filterMap] at hc
    obtain ⟨p, -, heq⟩ := hc
    split_ifs at heq with h
    cases heq
    exact h
  · intro smly cm pm c hc
    simp only [moverChangesUpd, List.mem_filterMap] at hc
    obtain ⟨p, -, heq⟩ := hc
    split_ifs at heq with h
    cases heq
    exact h

/-- Claim C7 witness: the guarded clauses at concrete inputs. -/
theorem C7_denominators_witness :
    (0 < (200 : Nat) ∧ oos_rate 50 200 = round1 ((50 : ℚ) / (200 : ℚ) * 100))
    ∧ ((3 ≤ ([0, 5, 7] : List Nat).length ∧ ([0, 5, 7] : List Nat).getD 0 0 = 0)
        ∧ mom_change [0, 5, 7] = 0)
    ∧ ((2 ≤ ([0, 7] : List Nat).length ∧ ([0, 7] : List Nat).getD 0 0 = 0)
        ∧ mom_change_upd [0, 7] = 0) := by
  refine ⟨⟨by decide, C7_denominators.2.2.1 50 200 (by decide)⟩, ⟨by decide, ?_⟩, ⟨by decide, ?_⟩⟩
  · exact C7_denominators.2.2.2.2.1 [0, 5, 7] (by decide) (by decide)
  · exact C7_denominators.2.2.2.2.2.2.1 [0, 7] (by decide) (by decide)

/-- Claim C9: while building the identifier-to-region map, a duplicate
identifier resolves to the most recently observed region value: the map at
any key equals the region of the last fetched row that matched the target
set, carried a non-empty region, and bore that key. -/
theorem C9_join_last_wins :
    (∀ target_ids inspections uid,
      fetch_inspection_states target_ids inspections uid
      = ((inspections.filter
            (fun i => decide (apiRowOk target_ids i ∧ i.unique_id = uid))).getLast?).map
          (fun i => i.report_state))
    ∧ fetch_inspection_states ["1"] [⟨"1", "CA"⟩, ⟨"1", "TX"⟩] "1" = some "TX" := by
  constructor
  · intro target_ids inspections uid
    exact foldl_condWrite (apiRowOk target_ids) (fun i => i.unique_id)
      (fun i => i.report_state) inspections uid
  · decide

/-- Claim C10: in the CSV pipeline, when several qualifying target-category
rows share one inspection identifier, the stored OOS flag is that of the
last such row in input order, and that flag is the one every aggregate
contribution of the inspection uses. -/
theorem C10_dedup_last_wins :
    (∀ rows id,
      load_elp_violations rows id
      = ((rows.filter (fun r => decide (elpRowOk r ∧ r.inspection_id = id))).getLast?).map
          (fun r => is_oos_ind r.oos_indicator))
    ∧ load_elp_violations
        [⟨"391", "11(B)(2)", "20250601", "1", "Y"⟩,
         ⟨"391", "11(B)(2)", "20250601", "1", "N"⟩] "1" = some false
    ∧ (∀ elp (row : InspectionRow) oosFlag e, elp row.inspection_id = some oosFlag →
        enrich elp row = some e → e.oos = oosFlag) := by
  refine ⟨?_, by decide, ?_⟩
  · intro rows id
    exact foldl_condWrite elpRowOk (fun r => r.inspection_id)
      (fun r => is_oos_ind r.oos_indicator) rows id
  · intro elp row oosFlag e h1 h2
    unfold enrich at h2
    rw [h1] at h2
    by_cases hs : row.report_state = ""
    · simp [hs] at h2
    · by_cases hd : row.insp_date = ""
      · simp [hs, hd] at h2
      · cases hp : parse_date row.insp_date with
        | none => simp [hs, hd, hp] at h2
        | some ym =>
          by_cases hy : ym.1 < 2025
          · simp [hs, hd, hp, hy] at h2
          · simp [hs, hd, hp, hy] at h2
            rw [← h2]

/-- Claim C8: in every monthly bucket, region bucket and region-by-month
cell of the pipeline output, and in the running totals,
`oos_count ≤ total_count`.  The statement is quantified over all input
collections, so it covers every intermediate accumulation state as well
(the state after any prefix of the rows is the pipeline output for that
prefix). -/
theorem C8_bucket_invariant (violations : List ViolationRow) (inspections : List InspectionRow) :
    (∀ ym, (lookupD ym ⟨0, 0⟩ (pipelineTables violations inspections).monthly).oos
      ≤ (lookupD ym ⟨0, 0⟩ (pipelineTables violations inspections).monthly).all)
    ∧ (∀ st, (lookupD st ⟨0, 0⟩ (pipelineTables violations inspections).state_data).oos
      ≤ (lookupD st ⟨0, 0⟩ (pipelineTables violations inspections).state_data).all)
    ∧ (∀ st ym,
        (lookupD ym ⟨0, 0⟩
          (lookupD st [] (pipelineTables violations inspections).state_monthly)).oos
      ≤ (lookupD ym ⟨0, 0⟩
          (lookupD st [] (pipelineTables violations inspections).state_monthly)).all)
    ∧ (pipelineTables violations inspections).total_oos
      ≤ (pipelineTables violations inspections).total_all := by
  have hp : pipelineTables violations inspections
      = aggregateE (inspections.filterMap (enrich (load_elp_violations violations))) :=
    process_inspections_eq_aggregateE _ _
  rw [hp]
  unfold aggregateE
  refine ⟨?_, ?_, ?_, ?_⟩
  · intro ym
    rw [agg_monthly _ emptyTables ym]
    simp only [emptyTables, lookupD, Nat.zero_add]
    exact List.countP_mono_left (fun e _ h => by simp only [Bool.and_eq_true] at h ⊢; exact h.1)
  · intro st
    rw [agg_state _ emptyTables st]
    simp only [emptyTables, lookupD, Nat.zero_add]
    exact List.countP_mono_left (fun e _ h => by simp only [Bool.and_eq_true] at h ⊢; exact h.1)
  · intro st ym
    rw [agg_state_monthly _ emptyTables st ym]
    simp only [emptyTables, lookupD, Nat.zero_add]
    exact List.countP_mono_left (fun e _ h => by simp only [Bool.and_eq_true] at h ⊢; exact h.1)
  · rw [(agg_totals _ emptyTables).1, (agg_totals _ emptyTables).2]
    simp only [emptyTables, Nat.zero_add]
    exact List.countP_le_length _

/-- Claim C3 (amended): permuting the enriched records leaves every bucket
count and both totals unchanged — the aggregation step is
order-independent. -/
theorem C3_aggregation_perm (l l' : List Enriched) (h : l.Perm l') :
    (∀ ym, lookupD ym ⟨0, 0⟩ (aggregateE l).monthly
      = lookupD ym ⟨0, 0⟩ (aggregateE l').monthly)
    ∧ (∀ st, lookupD st ⟨0, 0⟩ (aggregateE l).state_data
      = lookupD st ⟨0, 0⟩ (aggregateE l').state_data)
    ∧ (∀ st ym, lookupD ym ⟨0, 0⟩ (lookupD st [] (aggregateE l).state_monthly)
      = lookupD ym ⟨0, 0⟩ (lookupD st [] (aggregateE l').state_monthly))
    ∧ (aggregateE l).total_oos = (aggregateE l').total_oos
    ∧ (aggregateE l).total_all = (aggregateE l').total_all := by
  unfold aggregateE
  refine ⟨?_, ?_, ?_, ?_, ?_⟩
  · intro ym
    rw [agg_monthly l emptyTables ym, agg_monthly l' emptyTables ym,
      h.countP_eq, h.countP_eq]
  · intro st
    rw [agg_state l emptyTables st, agg_state l' emptyTables st,
      h.countP_eq, h.countP_eq]
  · intro st ym
    rw [agg_state_monthly l emptyTables st ym, agg_state_monthly l' emptyTables st ym,
      h.countP_eq, h.countP_eq]
  · rw [(agg_totals l emptyTables).1, (agg_totals l' emptyTables).1, h.countP_eq]
  · rw [(agg_totals l emptyTables).2, (agg_totals l' emptyTables).2, h.length_eq]

/-- Claim C3 witness: the permutation invariance at a concrete swap. -/
theorem C3_aggregation_perm_witness :
    (([⟨(2025, 1), "CA", true⟩, ⟨(2025, 2), "TX", false⟩] : List Enriched).Perm
      [⟨(2025, 2), "TX", false⟩, ⟨(2025, 1), "CA", true⟩])
    ∧ (aggregateE [⟨(2025, 1), "CA", true⟩, ⟨(2025, 2), "TX", false⟩]).total_oos
      = (aggregateE [⟨(2025, 2), "TX", false⟩, ⟨(2025, 1), "CA", true⟩]).total_oos :=
  ⟨List.Perm.swap _ _ _,
   (C3_aggregation_perm _ _ (List.Perm.swap _ _ _)).2.2.2.1⟩

/-- Claim C3 counterexample: the full pipeline is not order-independent.
Two qualifying violation rows share the identifier "1" with different OOS
flags; swapping them flips the stored flag (last-seen overwrite) and with
it `total_oos` of the final snapshot. -/
theorem C3_counterexample :
    ([(⟨"391", "11(B)(2)", "20250601", "1", "N"⟩ : ViolationRow),
      ⟨"391", "11(B)(2)", "20250601", "1", "Y"⟩].Perm
     [⟨"391", "11(B)(2)", "20250601", "1", "Y"⟩, ⟨"391", "11(B)(2)", "20250601", "1", "N"⟩])
    ∧ (pipelineTables
        [⟨"391", "11(B)(2)", "20250601", "1", "Y"⟩, ⟨"391", "11(B)(2)", "20250601", "1", "N"⟩]
        [⟨"1", "CA", "20250601"⟩]).total_oos = 0
    ∧ (pipelineTables
        [⟨"391", "11(B)(2)", "20250601", "1", "N"⟩, ⟨"391", "11(B)(2)", "20250601", "1", "Y"⟩]
        [⟨"1", "CA", "20250601"⟩]).total_oos = 1 :=
  ⟨List.Perm.swap _ _ _, by decide, by decide⟩

/-- Claim C4 (amended): `peak_month` picks a bucket of maximal `oos` count;
on ties the first bucket in dict-insertion order wins (everything before
the chosen bucket is strictly smaller), which is the order months first
appear in the input, not necessarily ascending chronological order. -/
theorem C4_peak_first_max (l : List (Month × Counts)) (h : l ≠ []) :
    ∃ l₁ p l₂, l = l₁ ++ p :: l₂ ∧ peak_month l = some p
      ∧ (∀ y ∈ l₁, y.2.oos < p.2.oos) ∧ ∀ y ∈ l, y.2.oos ≤ p.2.oos := by
  cases l with
  | nil => exact absurd rfl h
  | cons x xs =>
    obtain ⟨l₁, p, l₂, hsplit, hpick, hlt, hle⟩ := pickMax_decomp xs x
    exact ⟨l₁, p, l₂, hsplit, by rw [peak_month_cons, hpick], hlt, hle⟩

/-- Claim C4 witness: the first-maximum decomposition at a concrete table. -/
theorem C4_peak_first_max_witness :
    (([((2025, 1), ⟨2, 2⟩), ((2025, 2), ⟨1, 1⟩)] : List (Month × Counts)) ≠ [])
    ∧ (∃ l₁ p l₂,
        ([((2025, 1), ⟨2, 2⟩), ((2025, 2), ⟨1, 1⟩)] : List (Month × Counts)) = l₁ ++ p :: l₂
        ∧ peak_month [((2025, 1), ⟨2, 2⟩), ((2025, 2), ⟨1, 1⟩)] = some p
        ∧ (∀ y ∈ l₁, y.2.oos < p.2.oos)
        ∧ ∀ y ∈ ([((2025, 1), ⟨2, 2⟩), ((2025, 2), ⟨1, 1⟩)] : List (Month × Counts)),
            y.2.oos ≤ p.2.oos) :=
  ⟨by decide, C4_peak_first_max _ (by decide)⟩

/-- Claim C4 counterexample: a tie is not resolved to the earliest
chronological month.  March is observed before January; both months tie at
one OOS record, and the pipeline's peak is March, although January is the
chronologically earlier maximum. -/
theorem C4_counterexample :
    peak_month (pipelineTables
        [⟨"391", "11B2", "20250601", "1", "Y"⟩, ⟨"391", "11B2", "20250601", "2", "Y"⟩]
        [⟨"1", "CA", "20250315"⟩, ⟨"2", "CA", "20250115"⟩]).monthly
      = some ((2025, 3), ⟨1, 1⟩)
    ∧ ((2025, 1), (⟨1, 1⟩ : Counts)) ∈ (pipelineTables
        [⟨"391", "11B2", "20250601", "1", "Y"⟩, ⟨"391", "11B2", "20250601", "2", "Y"⟩]
        [⟨"1", "CA", "20250315"⟩, ⟨"2", "CA", "20250115"⟩]).monthly
    ∧ ((2025, 1) : Month) ≠ (2025, 3)
    ∧ monthLE (2025, 1) (2025, 3) := by decide

/-- Claim C2 (amended): in the CSV converter, with at least 3 months the
month-over-month change is `round(((m[-2] - m[-3]) / m[-3]) * 100, 1)` over
the ascending series, with exactly 2 months it compares `m[-1]` vs `m[-2]`,
with fewer it is 0, and a zero comparison base yields 0; the series
[10, 20, 15, 30] gives −25.0.  (The update_data variant always compares the
latest two months; see the counterexample.) -/
theorem C2_mom_change_spec :
    (∀ l : List Nat, 3 ≤ l.length → 0 < l.getD (l.length - 3) 0 →
      round1 (mom_change l)
        = round1 (((l.getD (l.length - 2) 0 : ℚ) - (l.getD (l.length - 3) 0 : ℚ))
            / (l.getD (l.length - 3) 0 : ℚ) * 100))
    ∧ (∀ l : List Nat, 3 ≤ l.length → l.getD (l.length - 3) 0 = 0 → mom_change l = 0)
    ∧ (∀ l : List Nat, l.length = 2 → 0 < l.getD (l.length - 2) 0 →
      round1 (mom_change l)
        = round1 (((l.getD (l.length - 1) 0 : ℚ) - (l.getD (l.length - 2) 0 : ℚ))
            / (l.getD (l.length - 2) 0 : ℚ) * 100))
    ∧ (∀ l : List Nat, l.length = 2 → l.getD (l.length - 2) 0 = 0 → mom_change l = 0)
    ∧ (∀ l : List Nat, l.length < 2 → mom_change l = 0)
    ∧ round1 (mom_change [10, 20, 15, 30]) = -25 := by
  refine ⟨?_, ?_, ?_, ?_, ?_, ?_⟩
  · intro l h3 hpos
    have hq : (0 : ℚ) < (l.getD (l.length - 3) 0 : ℚ) := by exact_mod_cast hpos
    simp only [mom_change, if_pos h3, if_pos hq]
  · intro l h3 hz
    simp only [mom_change, if_pos h3, hz]
    norm_num
  · intro l h2 hpos
    have h3 : ¬ 3 ≤ l.length := by omega
    have h2' : 2 ≤ l.length := by omega
    have hq : (0 : ℚ) < (l.getD (l.length - 2) 0 : ℚ) := by exact_mod_cast hpos
    simp only [mom_change, if_neg h3, if_pos h2', if_pos hq]
  · intro l h2 hz
    have h3 : ¬ 3 ≤ l.length := by omega
    have h2' : 2 ≤ l.length := by omega
    simp only [mom_change, if_neg h3, if_pos h2', hz]
    norm_num
  · intro l h1
    have h3 : ¬ 3 ≤ l.length := by omega
    have h2 : ¬ 2 ≤ l.length := by omega
    simp only [mom_change, if_neg h3, if_neg h2]
  · have hv : mom_change [10, 20, 15, 30] = ((15 : ℚ) - 20) / 20 * 100 := by
      norm_num [mom_change, List.getD]
    rw [hv]
    norm_num [round1, roundHalfEven]

/-- Claim C2 witness: the three-month rule at the series [10, 20, 15, 30]. -/
theorem C2_mom_change_spec_witness :
    (3 ≤ ([10, 20, 15, 30] : List Nat).length)
    ∧ 0 < ([10, 20, 15, 30] : List Nat).getD (([10, 20, 15, 30] : List Nat).length - 3) 0
    ∧ round1 (mom_change [10, 20, 15, 30])
      = round1 (((([10, 20, 15, 30] : List Nat).getD (([10, 20, 15, 30] : List Nat).length - 2) 0 : ℚ)
          - (([10, 20, 15, 30] : List Nat).getD (([10, 20, 15, 30] : List Nat).length - 3) 0 : ℚ))
          / (([10, 20, 15, 30] : List Nat).getD (([10, 20, 15, 30] : List Nat).length - 3) 0 : ℚ)
          * 100) :=
  ⟨by decide, by decide, C2_mom_change_spec.1 [10, 20, 15, 30] (by decide) (by decide)⟩

/-- Claim C2 counterexample: the claim also covers the `process_violations`
variant of update_data.py, which does not exclude the most recent month:
on the series [10, 20, 15, 30] it yields 100.0, not the claimed −25.0. -/
theorem C2_counterexample :
    round1 (mom_change_upd [10, 20, 15, 30]) = 100
    ∧ round1 (mom_change [10, 20, 15, 30]) = -25
    ∧ ((100 : ℚ) ≠ -25) := by
  refine ⟨?_, ?_, by norm_num⟩
  · have hv : mom_change_upd [10, 20, 15, 30] = ((30 : ℚ) - 15) / 15 * 100 := by
      norm_num [mom_change_upd, List.getD]
    rw [hv]
    norm_num [round1, roundHalfEven]
  · have hv : mom_change [10, 20, 15, 30] = ((15 : ℚ) - 20) / 20 * 100 := by
      norm_num [mom_change, List.getD]
    rw [hv]
    norm_num [round1, roundHalfEven]

instance : IsTotal Change changeDesc := ⟨fun a b => le_total b.change a.change⟩

instance : IsTrans Change changeDesc := ⟨fun _ _ _ hab hbc => le_trans hbc hab⟩

/-- Claim C1 (amended): in the CSV converter, with at least 3 months the
movers use `months[-2]` (current) and `months[-3]` (previous); a region
qualifies iff its previous-reference-month oos count is at least 5;
qualifying regions are ranked by rounded percentage change descending;
`increases` is the top 3 (all qualifying regions when fewer than 3
qualify) and `decreases` is the bottom 3 reversed (most negative first),
but EMPTY when fewer than 3 regions qualify; with fewer than 3 months both
lists are empty.  (The update_data variant differs; see the
counterexample.) -/
theorem C1_movers_spec :
    (∀ smly (sm : List Month), sm.length < 3 → calculate_biggest_movers smly sm = ([], []))
    ∧ (∀ smly (sm : List Month), 3 ≤ sm.length →
        (calculate_biggest_movers smly sm).1
          = (List.insertionSort changeDesc
              (moverChanges smly (sm.getD (sm.length - 2) (0, 0))
                (sm.getD (sm.length - 3) (0, 0)))).take 3
        ∧ (calculate_biggest_movers smly sm).2
          = (if 3 ≤ (List.insertionSort changeDesc
                (moverChanges smly (sm.getD (sm.length - 2) (0, 0))
                  (sm.getD (sm.length - 3) (0, 0)))).length
             then ((List.insertionSort changeDesc
                (moverChanges smly (sm.getD (sm.length - 2) (0, 0))
                  (sm.getD (sm.length - 3) (0, 0)))).drop
                  ((List.insertionSort changeDesc
                    (moverChanges smly (sm.getD (sm.length - 2) (0, 0))
                      (sm.getD (sm.length - 3) (0, 0)))).length - 3)).reverse
             else []))
    ∧ (∀ smly cm pm (c : Change), c ∈ moverChanges smly cm pm ↔
        ∃ p ∈ smly, 5 ≤ (lookupD pm ⟨0, 0⟩ p.2).oos
          ∧ c = ⟨p.1,
              round1 ((((lookupD cm ⟨0, 0⟩ p.2).oos : ℚ) - ((lookupD pm ⟨0, 0⟩ p.2).oos : ℚ))
                / ((lookupD pm ⟨0, 0⟩ p.2).oos : ℚ) * 100),
              (lookupD cm ⟨0, 0⟩ p.2).oos, (lookupD pm ⟨0, 0⟩ p.2).oos⟩)
    ∧ (∀ l : List Change, (List.insertionSort changeDesc l).Sorted changeDesc)
    ∧ (∀ l : List Change, (List.insertionSort changeDesc l).Perm l)
    ∧ (∀ (k : Nat) (l : List Change),
        (((List.insertionSort changeDesc l).drop k).reverse).Sorted
          (fun a b => a.change ≤ b.change))
    ∧ (∀ smly (sm : List Month), sm.length < 2 →
        calculate_biggest_movers_upd smly sm = ([], [])) := by
  refine ⟨?_, ?_, ?_, ?_, ?_, ?_, ?_⟩
  · intro smly sm h
    simp [calculate_biggest_movers, h]
  · intro smly sm h3
    have h : ¬ sm.length < 3 := by omega
    refine ⟨?_, ?_⟩
    · simp only [calculate_biggest_movers, if_neg h]
      by_cases hlen : 3 ≤ (List.insertionSort changeDesc
          (moverChanges smly (sm.getD (sm.length - 2) (0, 0))
            (sm.getD (sm.length - 3) (0, 0)))).length
      · rw [if_pos hlen]
      · simp only [if_neg hlen]
        exact (List.take_of_length_le (by omega)).symm
    · simp only [calculate_biggest_movers, if_neg h]
  · intro smly cm pm c
    simp only [moverChanges, List.mem_filterMap]
    constructor
    · rintro ⟨p, hp, heq⟩
      split_ifs at heq with h5
      · cases heq
        exact ⟨p, hp, h5, rfl⟩
    · rintro ⟨p, hp, h5, rfl⟩
      exact ⟨p, hp, by rw [if_pos h5]⟩
  · intro l
    exact List.sorted_insertionSort changeDesc l
  · intro l
    exact List.perm_insertionSort changeDesc l
  · intro k l
    have hs : (List.insertionSort changeDesc l).Sorted changeDesc :=
      List.sorted_insertionSort changeDesc l
    have hd : ((List.insertionSort changeDesc l).drop k).Pairwise changeDesc :=
      List.Pairwise.sublist (List.drop_sublist k _) hs
    exact List.pairwise_reverse.mpr hd
  · intro smly sm h
    simp [calculate_biggest_movers_upd, h]

/-- Claim C1 witness: the movers characterization at concrete inputs for
both the fewer-than-3-months branch and the 3-month branch. -/
theorem C1_movers_spec_witness :
    (([(2025, 1), (2025, 2)] : List Month).length < 3)
    ∧ calculate_biggest_movers [] [(2025, 1), (2025, 2)] = ([], [])
    ∧ (3 ≤ ([(2025, 1), (2025, 2), (2025, 3)] : List Month).length)
    ∧ (calculate_biggest_movers [] [(2025, 1), (2025, 2), (2025, 3)]).1
      = (List.insertionSort changeDesc
          (moverChanges []
            (([(2025, 1), (2025, 2), (2025, 3)] : List Month).getD
              (([(2025, 1), (2025, 2), (2025, 3)] : List Month).length - 2) (0, 0))
            (([(2025, 1), (2025, 2), (2025, 3)] : List Month).getD
              (([(2025, 1), (2025, 2), (2025, 3)] : List Month).length - 3) (0, 0)))).take 3 :=
  ⟨by decide, C1_movers_spec.1 [] [(2025, 1), (2025, 2)] (by decide), by decide,
   (C1_movers_spec.2.1 [] [(2025, 1), (2025, 2), (2025, 3)] (by decide)).1⟩

/-- Claim C1 counterexample: (i) in the CSV converter, with one qualifying
region whose change is negative, `decreases` is empty rather than
reporting all qualifying regions on that side; (ii) the update_data
variant reports movers with only 2 months of history, where the claim
requires both lists to be empty. -/
theorem C1_counterexample :
    calculate_biggest_movers [("CA", [((2025, 1), ⟨6, 6⟩), ((2025, 2), ⟨3, 3⟩)])]
        [(2025, 1), (2025, 2), (2025, 3)]
      = ([⟨"CA", -50, 3, 6⟩], [])
    ∧ calculate_biggest_movers_upd [("CA", [((2025, 1), ⟨6, 6⟩), ((2025, 2), ⟨12, 12⟩)])]
        [(2025, 1), (2025, 2)]
      = ([⟨"CA", 100, 12, 6⟩], []) := by
  constructor
  · norm_num [calculate_biggest_movers, moverChanges, lookupD, List.insertionSort,
      List.orderedInsert, round1, roundHalfEven, List.getD]
  · norm_num [calculate_biggest_movers_upd, moverChangesUpd, lookupD, List.insertionSort,
      List.orderedInsert, round1, roundHalfEven, List.getD, List.filter]

/-- Claim C10 witness: the flag-propagation clause at a concrete record. -/
theorem C10_dedup_last_wins_witness :
    (fun _ : String => some true) "1" = some true
    ∧ enrich (fun _ => some true) ⟨"1", "CA", "20250601"⟩ = some ⟨(2025, 6), "CA", true⟩
    ∧ (Enriched.oos ⟨(2025, 6), "CA", true⟩) = true := by
  refine ⟨rfl, by decide, ?_⟩
  exact C10_dedup_last_wins.2.2 (fun _ => some true) ⟨"1", "CA", "20250601"⟩ true
    ⟨(2025, 6), "CA", true⟩ rfl (by decide)

end ELP
